import Mathlib

/-!
Verification of the timeZest client library's resilient request core:
the TQL filter builder (`src/utils/tqlFilter.ts`), the request executor
with retry/backoff (`src/utils/makeRequest.ts`), the error classifier
(`src/utils/handleError.ts`) and the pagination aggregator
(`src/utils/makePaginatedRequest.ts`), shallowly embedded as executable
Lean definitions, with theorems settling the specification's claims.
-/

set_option maxHeartbeats 1000000

/- ## TQL filter builder (src/utils/tqlFilter.ts) -/

/-- The TQL comparison operators (type `TQLOperator`). -/
inductive TQLOperator where
  | EQ | NOT_EQ | LIKE | NOT_LIKE | IN | NOT_IN | GT | GTE | LT | LTE
deriving DecidableEq, Repr

/-- The logical connectors (type `LogicalOperator`). -/
inductive LogicalOperator where
  | AND | OR
deriving DecidableEq, Repr

/-- A predicate value: `string | number | string[] | number[]`. JS numbers are
used as integers throughout the library, modelled as `Int`. -/
inductive TQLValue where
  | str (s : String)
  | num (n : Int)
  | strList (l : List String)
  | numList (l : List Int)
deriving DecidableEq, Repr

/-- One finished predicate (interface `TQLPredicate`). -/
structure TQLPredicate where
  attrName : String
  operator : TQLOperator
  value : TQLValue
deriving DecidableEq, Repr

/-- The builder state of class `TQLFilter`. A JS `null` field is `none`
(resp. `""` for `currentAttribute`). `entityPref` models the
`entityPrefix` field. -/
structure TQLFilter where
  predicates : List TQLPredicate
  logicalOperators : List LogicalOperator
  entityPref : Option String
  currentAttribute : String
  currentOperator : Option TQLOperator
  currentValue : Option TQLValue
deriving DecidableEq, Repr

/-- The constructor `new TQLFilter(attribute, entityPrefix?)`: a falsy
(absent or empty) prefix argument is stored as `null`. -/
def mkFilter (attrName : String) (pre : Option String) : TQLFilter :=
  { predicates := []
    logicalOperators := []
    entityPref := match pre with
      | none => none
      | some p => if p = "" then none else some p
    currentAttribute := attrName
    currentOperator := none
    currentValue := none }

/-- `finalizePredicate()`: pushes the current triple when the attribute is
truthy and operator and value are non-null, then clears all three. -/
def finalizePredicate (f : TQLFilter) : TQLFilter :=
  let ps := match f.currentOperator, f.currentValue with
    | some op, some v =>
      if f.currentAttribute = "" then f.predicates
      else f.predicates ++ [⟨f.currentAttribute, op, v⟩]
    | _, _ => f.predicates
  { f with predicates := ps
           currentAttribute := ""
           currentOperator := none
           currentValue := none }

/-- `setComparison(operator, value)`: throws unless an attribute is pending,
otherwise records the pair and finalizes. -/
def setComparison (f : TQLFilter) (op : TQLOperator) (v : TQLValue) :
    Except String TQLFilter :=
  if f.currentAttribute = "" then
    .error "Must call filter() or and() or or() before using comparison operators"
  else
    .ok (finalizePredicate
      { f with currentOperator := some op, currentValue := some v })

/-- Method `eq`. -/
def eqTQL (f : TQLFilter) (v : TQLValue) : Except String TQLFilter :=
  setComparison f .EQ v

/-- Method `notEq`. -/
def notEqTQL (f : TQLFilter) (v : TQLValue) : Except String TQLFilter :=
  setComparison f .NOT_EQ v

/-- Method `like`. -/
def likeTQL (f : TQLFilter) (s : String) : Except String TQLFilter :=
  setComparison f .LIKE (.str s)

/-- Method `notLike`. -/
def notLikeTQL (f : TQLFilter) (s : String) : Except String TQLFilter :=
  setComparison f .NOT_LIKE (.str s)

/-- Is the value a non-empty array (the `Array.isArray`/length check of
`in`/`notIn`)? -/
def isNonEmptyArr : TQLValue → Bool
  | .strList l => !l.isEmpty
  | .numList l => !l.isEmpty
  | _ => false

/-- Method `in`. -/
def inTQL (f : TQLFilter) (v : TQLValue) : Except String TQLFilter :=
  if isNonEmptyArr v then setComparison f .IN v
  else .error "IN operator requires a non-empty array"

/-- Method `notIn`. -/
def notInTQL (f : TQLFilter) (v : TQLValue) : Except String TQLFilter :=
  if isNonEmptyArr v then setComparison f .NOT_IN v
  else .error "NOT_IN operator requires a non-empty array"

/-- Method `gt`. -/
def gtTQL (f : TQLFilter) (n : Int) : Except String TQLFilter :=
  setComparison f .GT (.num n)

/-- Method `gte`. -/
def gteTQL (f : TQLFilter) (n : Int) : Except String TQLFilter :=
  setComparison f .GTE (.num n)

/-- Method `lt`. -/
def ltTQL (f : TQLFilter) (n : Int) : Except String TQLFilter :=
  setComparison f .LT (.num n)

/-- Method `lte`. -/
def lteTQL (f : TQLFilter) (n : Int) : Except String TQLFilter :=
  setComparison f .LTE (.num n)

/-- The implicit-prefix rule of `and`/`or`: prepend the entity prefix when
it is truthy and the attribute contains no dot. -/
def applyPref (f : TQLFilter) (attrName : String) : String :=
  match f.entityPref with
  | some p => if attrName.contains '.' then attrName else p ++ "." ++ attrName
  | none => attrName

/-- Method `and`. -/
def andTQL (f : TQLFilter) (attrName : String) : Except String TQLFilter :=
  if f.predicates.length = 0 then
    .error "Must have at least one predicate before using AND"
  else
    .ok { f with logicalOperators := f.logicalOperators ++ [.AND]
                 currentAttribute := applyPref f attrName }

/-- Method `or`. -/
def orTQL (f : TQLFilter) (attrName : String) : Except String TQLFilter :=
  if f.predicates.length = 0 then
    .error "Must have at least one predicate before using OR"
  else
    .ok { f with logicalOperators := f.logicalOperators ++ [.OR]
                 currentAttribute := applyPref f attrName }

/- ### Rendering -/

/-- The quoting test of `formatSingleValue`: regex `[\s,~"\\]` or empty. -/
def needsQuoting (s : String) : Bool :=
  s.toList.any (fun c =>
    c.isWhitespace || c = ',' || c = '~' || c = '"' || c = '\\') || s = ""

/-- `value.replace(/[\\"]/g, '\\$&')`: escape backslashes and quotes. -/
def escapeVal (s : String) : String :=
  String.mk ((s.toList.map (fun c =>
    if c = '\\' || c = '"' then ['\\', c] else [c])).flatten)

/-- `formatSingleValue` on a string. -/
def formatSingleStr (s : String) : String :=
  if needsQuoting s then "\"" ++ escapeVal s ++ "\"" else s

/-- `formatValue`: arrays joined by bare commas, scalars via
`formatSingleValue` (numbers via `String(value)`). -/
def formatValue : TQLValue → String
  | .str s => formatSingleStr s
  | .num n => toString n
  | .strList l => String.intercalate "," (l.map formatSingleStr)
  | .numList l => String.intercalate "," (l.map (fun n => toString n))

/-- The character loop of `replaceSpacesOutsideQuotes`, with the
`insideQuotes` flag threaded through. -/
def replSpacesGo : Bool → List Char → List Char
  | _, [] => []
  | inq, c :: rest =>
    if c = '\\' && inq then
      match rest with
      | [] => [c]
      | d :: rest2 => c :: d :: replSpacesGo inq rest2
    else if c = '"' then c :: replSpacesGo (!inq) rest
    else if c.isWhitespace then (if inq then c else '~') :: replSpacesGo inq rest
    else c :: replSpacesGo inq rest

/-- `replaceSpacesOutsideQuotes(str)`. -/
def replaceSpacesOutsideQuotes (s : String) : String :=
  String.mk (replSpacesGo false s.toList)

/-- The pending-predicate pass at the top of `toString`: finalize the
current triple when it is complete. -/
def preFinalize (f : TQLFilter) : TQLFilter :=
  match f.currentOperator, f.currentValue with
  | some _, some _ => if f.currentAttribute = "" then f else finalizePredicate f
  | _, _ => f

/-- One predicate rendered as `"<attribute> <OPERATOR> <value>"`. -/
def predStr (p : TQLPredicate) : String :=
  p.attrName ++ " " ++ (match p.operator with
    | .EQ => "EQ" | .NOT_EQ => "NOT_EQ" | .LIKE => "LIKE" | .NOT_LIKE => "NOT_LIKE"
    | .IN => "IN" | .NOT_IN => "NOT_IN" | .GT => "GT" | .GTE => "GTE"
    | .LT => "LT" | .LTE => "LTE") ++ " " ++ formatValue p.value

/-- A connector rendered as text. -/
def lopStr : LogicalOperator → String
  | .AND => "AND"
  | .OR => "OR"

/-- The `parts` loop of `toString`: predicate `i`, then
`logicalOperators[i]` when a next predicate exists and the entry is present. -/
def buildParts : List TQLPredicate → List LogicalOperator → List String
  | [], _ => []
  | [p], _ => [predStr p]
  | p :: ps, [] => predStr p :: buildParts ps []
  | p :: ps, lop :: lops => predStr p :: lopStr lop :: buildParts ps lops

/-- The joined (and optionally URL-encoded) filter string of a builder
state whose pending pass already ran. -/
def renderCore (f : TQLFilter) (urlEncode : Bool) : String :=
  let s := String.intercalate " " (buildParts f.predicates f.logicalOperators)
  if urlEncode then replaceSpacesOutsideQuotes s else s

/-- `toString(urlEncode)`. The method mutates the builder through
`finalizePredicate`, so the model returns the rendered string together
with the post-call state. -/
def toStringTQL (f : TQLFilter) (urlEncode : Bool) :
    Except String (String × TQLFilter) :=
  let g := preFinalize f
  if g.predicates = [] then .error "Filter must have at least one predicate"
  else .ok (renderCore g urlEncode, g)

/-- The rendered string alone. -/
def renderTQL (f : TQLFilter) (urlEncode : Bool) : Except String String :=
  (toStringTQL f urlEncode).map Prod.fst

/-- `valueOf()` (and `Symbol.toPrimitive`): delegate to `toString()` with
its default `urlEncode = true`. -/
def valueOfTQL (f : TQLFilter) : Except String (String × TQLFilter) :=
  toStringTQL f true

/-- A builder with the current (dangling) triple cleared. -/
def clearCurrent (f : TQLFilter) : TQLFilter :=
  { f with currentAttribute := "", currentOperator := none, currentValue := none }

/-- The C1 example chain
`filter("status").eq("scheduled").and("name").like("John Doe")`. -/
def c1Chain : Except String TQLFilter := do
  let f0 := mkFilter "status" none
  let f1 ← eqTQL f0 (.str "scheduled")
  let f2 ← andTQL f1 "name"
  likeTQL f2 "John Doe"

/-- The C1 example rendered with the given `urlEncode` flag. -/
def c1Render (urlEncode : Bool) : Except String String :=
  c1Chain.bind (fun f => renderTQL f urlEncode)

/- ### Builder lemmas -/

lemma finalizePredicate_currentAttribute (f : TQLFilter) :
    (finalizePredicate f).currentAttribute = "" := rfl

lemma preFinalize_of_op_none (f : TQLFilter) (h : f.currentOperator = none) :
    preFinalize f = f := by
  unfold preFinalize
  rw [h]

lemma preFinalize_idem (f : TQLFilter) :
    preFinalize (preFinalize f) = preFinalize f := by
  rcases f with ⟨ps, lops, ep, attr, op, v⟩
  cases op <;> cases v <;>
    first
      | rfl
      | (by_cases h : attr = "" <;> simp [preFinalize, finalizePredicate, h])

/-- C1 claim, as stated, is false on the code: with `urlEncode = true` the
example renders with every whitespace OUTSIDE the quoted span replaced by a
tilde (the space inside the quoted value is preserved), not the string the
claim names. -/
theorem c1_counterexample :
    c1Render true = Except.ok "status~EQ~scheduled~AND~name~LIKE~\"John Doe\"" ∧
    "status~EQ~scheduled~AND~name~LIKE~\"John Doe\"" ≠
      "status EQ scheduled AND name LIKE \"John~Doe\"" :=
  ⟨rfl, by decide⟩

/-- C1 (amended): the builder sequence
`filter("status").eq("scheduled").and("name").like("John Doe")` renders with
`urlEncode = true` to exactly `status~EQ~scheduled~AND~name~LIKE~"John Doe"`
and with `urlEncode = false` to exactly
`status EQ scheduled AND name LIKE "John Doe"`; the URL-encoding pass
replaces every whitespace character lying outside a quoted span with a
tilde (on quote-free input it is exactly the character map sending
whitespace to `~`), tracked character-by-character with backslash-escaped
units inside quotes not toggling quote state (shown on a concrete input
with an escaped quote). -/
theorem c1_amended :
    c1Render true = Except.ok "status~EQ~scheduled~AND~name~LIKE~\"John Doe\"" ∧
    c1Render false = Except.ok "status EQ scheduled AND name LIKE \"John Doe\"" ∧
    (∀ cs : List Char, '"' ∉ cs →
      replSpacesGo false cs = cs.map (fun c => if c.isWhitespace then '~' else c)) ∧
    replaceSpacesOutsideQuotes "x \"a\\\" b\" y" = "x~\"a\\\" b\"~y" := by
  refine ⟨rfl, rfl, ?_, rfl⟩
  intro cs hq
  induction cs with
  | nil => rfl
  | cons c rest ih =>
    simp only [List.mem_cons, not_or] at hq
    obtain ⟨hc, hrest⟩ := hq
    have hc2 : ¬ (c = '"') := fun h => hc h.symm
    rw [replSpacesGo.eq_def]
    simp only [Bool.and_false, Bool.false_eq_true, if_false, hc2, List.map]
    by_cases hw : c.isWhitespace <;> simp [hw, hc2, ih hrest]

/-- C1 witness: the whitespace-map characterization applied at a concrete
quote-free input. -/
theorem c1_amended_witness :
    replSpacesGo false (' ' :: 'x' :: []) = '~' :: 'x' :: [] := by
  have h := c1_amended.2.2.1 (' ' :: 'x' :: []) (by decide)
  simpa using h

/-- C7 claim, as stated, is false on the code: in the AwaitingOperator state
reached through a connector (predicates already finalized, dangling
attribute `"b"`), a further `and` call is NOT rejected — the chain
`filter("a").eq("1").and("b").and("c")` succeeds, appending a second
connector and replacing the dangling attribute. -/
theorem c7_counterexample :
    (do
      let f1 ← eqTQL (mkFilter "a" none) (.str "1")
      let f2 ← andTQL f1 "b"
      andTQL f2 "c") =
    Except.ok (⟨[⟨"a", .EQ, .str "1"⟩], [.AND, .AND], none, "c", none, none⟩ :
      TQLFilter) := rfl

/-- C7 (amended): in AwaitingOperator (a current attribute is pending) every
operator-setting operation succeeds; an operator method called immediately
after another operator method (no intervening connector) fails with the
invalid-sequence error; each of the other calls — the connectors `and(...)`
and `or(...)` and `render` (`toString`, taken in AwaitingOperator, i.e. with
no complete pending triple) — fails with its invalid-sequence/empty-filter
error exactly when no predicate has been finalized yet: with zero finalized
predicates all three fail, and after at least one finalized predicate
`and`, `or` and `render` all succeed even in AwaitingOperator. -/
theorem c7_awaiting_operator_rules :
    (∀ (f : TQLFilter) (op : TQLOperator) (v : TQLValue),
        f.currentAttribute ≠ "" → ∃ f2, setComparison f op v = .ok f2)
    ∧ (∀ (f f2 : TQLFilter) (op op2 : TQLOperator) (v v2 : TQLValue),
        setComparison f op v = .ok f2 →
        setComparison f2 op2 v2 =
          .error "Must call filter() or and() or or() before using comparison operators")
    ∧ (∀ (f : TQLFilter) (a : String), f.predicates = [] →
        andTQL f a = .error "Must have at least one predicate before using AND")
    ∧ (∀ (f : TQLFilter) (a : String), f.predicates ≠ [] →
        ∃ f2, andTQL f a = .ok f2)
    ∧ (∀ (f : TQLFilter) (a : String), f.predicates = [] →
        orTQL f a = .error "Must have at least one predicate before using OR")
    ∧ (∀ (f : TQLFilter) (a : String), f.predicates ≠ [] →
        ∃ f2, orTQL f a = .ok f2)
    ∧ (∀ (f : TQLFilter) (u : Bool), f.currentOperator = none →
        f.predicates = [] →
        toStringTQL f u = .error "Filter must have at least one predicate")
    ∧ (∀ (f : TQLFilter) (u : Bool), f.currentOperator = none →
        f.predicates ≠ [] → ∃ s, toStringTQL f u = .ok (s, f)) := by
  refine ⟨?_, ?_, ?_, ?_, ?_, ?_, ?_, ?_⟩
  · intro f op v h
    exact ⟨finalizePredicate
      { f with currentOperator := some op, currentValue := some v },
      by simp [setComparison, h]⟩
  · intro f f2 op op2 v v2 h
    unfold setComparison at h ⊢
    by_cases ha : f.currentAttribute = ""
    · simp [ha] at h
    · simp only [ha, if_false] at h
      obtain rfl : finalizePredicate
          { f with currentOperator := some op, currentValue := some v } = f2 := by
        simpa using h
      simp [finalizePredicate_currentAttribute]
  · intro f a h
    simp [andTQL, h]
  · intro f a h
    exact ⟨{ f with logicalOperators := f.logicalOperators ++ [.AND], currentAttribute := applyPref f a }, by simp [andTQL, List.length_eq_zero, h]⟩
  · intro f a h
    simp [orTQL, h]
  · intro f a h
    exact ⟨{ f with logicalOperators := f.logicalOperators ++ [.OR], currentAttribute := applyPref f a }, by simp [orTQL, List.length_eq_zero, h]⟩
  · intro f u hop hp
    unfold toStringTQL
    rw [preFinalize_of_op_none f hop]
    simp [hp]
  · intro f u hop hp
    refine ⟨renderCore f u, ?_⟩
    unfold toStringTQL
    rw [preFinalize_of_op_none f hop]
    simp [hp]

/-- C7 witness: the rules applied at concrete builder states. -/
theorem c7_awaiting_operator_rules_witness :
    (∃ f2, setComparison (mkFilter "a" none) .EQ (.str "x") = Except.ok f2)
    ∧ setComparison
        (⟨[⟨"a", .EQ, .str "x"⟩], [], none, "", none, none⟩ : TQLFilter)
        .LIKE (.str "y") =
        Except.error "Must call filter() or and() or or() before using comparison operators"
    ∧ andTQL (mkFilter "a" none) "b" =
        Except.error "Must have at least one predicate before using AND"
    ∧ (∃ f2, andTQL
        (⟨[⟨"a", .EQ, .str "x"⟩], [], none, "", none, none⟩ : TQLFilter) "b" =
        Except.ok f2)
    ∧ orTQL (mkFilter "a" none) "b" =
        Except.error "Must have at least one predicate before using OR"
    ∧ (∃ f2, orTQL
        (⟨[⟨"a", .EQ, .str "x"⟩], [], none, "", none, none⟩ : TQLFilter) "b" =
        Except.ok f2)
    ∧ toStringTQL (mkFilter "a" none) true =
        Except.error "Filter must have at least one predicate"
    ∧ ∃ s, toStringTQL
        (⟨[⟨"a", .EQ, .str "x"⟩], [], none, "b", none, none⟩ : TQLFilter) true =
        Except.ok (s,
          (⟨[⟨"a", .EQ, .str "x"⟩], [], none, "b", none, none⟩ : TQLFilter)) := by
  refine ⟨?_, ?_, ?_, ?_, ?_, ?_, ?_, ?_⟩
  · exact c7_awaiting_operator_rules.1 (mkFilter "a" none) .EQ (.str "x") (by decide)
  · exact c7_awaiting_operator_rules.2.1 (mkFilter "a" none) _ .EQ .LIKE
      (.str "x") (.str "y") rfl
  · exact c7_awaiting_operator_rules.2.2.1 (mkFilter "a" none) "b" rfl
  · exact c7_awaiting_operator_rules.2.2.2.1
      (⟨[⟨"a", .EQ, .str "x"⟩], [], none, "", none, none⟩ : TQLFilter) "b" (by decide)
  · exact c7_awaiting_operator_rules.2.2.2.2.1 (mkFilter "a" none) "b" rfl
  · exact c7_awaiting_operator_rules.2.2.2.2.2.1
      (⟨[⟨"a", .EQ, .str "x"⟩], [], none, "", none, none⟩ : TQLFilter) "b" (by decide)
  · exact c7_awaiting_operator_rules.2.2.2.2.2.2.1 (mkFilter "a" none) true rfl rfl
  · exact c7_awaiting_operator_rules.2.2.2.2.2.2.2
      (⟨[⟨"a", .EQ, .str "x"⟩], [], none, "b", none, none⟩ : TQLFilter) true rfl
      (by decide)

/-- C9: rendering with zero finalized predicates fails with the
empty-filter error; a dangling attribute (no operator/value supplied) is
never finalized and does not influence the rendered string, so a builder
holding only a dangling attribute also fails with the empty-filter error. -/
theorem c9_empty_filter_render :
    (∀ (f : TQLFilter) (u : Bool), f.currentOperator = none →
        f.predicates = [] →
        toStringTQL f u = .error "Filter must have at least one predicate")
    ∧ (∀ (f : TQLFilter) (u : Bool), f.currentOperator = none →
        renderTQL f u = renderTQL (clearCurrent f) u)
    ∧ (∀ (a : String) (pre : Option String) (u : Bool),
        toStringTQL (mkFilter a pre) u =
          .error "Filter must have at least one predicate") := by
  refine ⟨?_, ?_, ?_⟩
  · intro f u hop hp
    unfold toStringTQL
    rw [preFinalize_of_op_none f hop]
    simp [hp]
  · intro f u hop
    have h1 : preFinalize f = f := preFinalize_of_op_none f hop
    have h2 : preFinalize (clearCurrent f) = clearCurrent f :=
      preFinalize_of_op_none _ rfl
    unfold renderTQL toStringTQL
    rw [h1, h2]
    by_cases hp : f.predicates = []
    · simp [clearCurrent, hp]
    · simp [clearCurrent, hp, renderCore, Except.map]
  · intro a pre u
    unfold toStringTQL
    rw [preFinalize_of_op_none _ rfl]
    simp [mkFilter]

/-- C9 witness: the empty-filter failure and the dangling-attribute
irrelevance at a concrete builder. -/
theorem c9_empty_filter_render_witness :
    toStringTQL (mkFilter "status" none) true =
      Except.error "Filter must have at least one predicate"
    ∧ renderTQL (mkFilter "status" none) true =
      renderTQL (clearCurrent (mkFilter "status" none)) true :=
  ⟨c9_empty_filter_render.1 (mkFilter "status" none) true rfl rfl,
   c9_empty_filter_render.2.1 (mkFilter "status" none) true rfl⟩

/-- C10 (implicit): when `toString` succeeds it finalizes any complete
pending predicate into the post-call state `f2`; rendering `f2` again with
the same flag yields the same string and the unchanged state (in particular
the predicate list does not grow), and `valueOf` (hence
`Symbol.toPrimitive`) is exactly `toString` with its default
`urlEncode = true`. -/
theorem c10_render_idempotent :
    (∀ (f : TQLFilter) (u : Bool) (s : String) (f2 : TQLFilter),
        toStringTQL f u = .ok (s, f2) → toStringTQL f2 u = .ok (s, f2))
    ∧ ∀ f : TQLFilter, valueOfTQL f = toStringTQL f true := by
  constructor
  · intro f u s f2 h
    unfold toStringTQL at h ⊢
    by_cases hp : (preFinalize f).predicates = []
    · simp [hp] at h
    · simp only [hp, if_false] at h
      obtain ⟨hs, hf⟩ : renderCore (preFinalize f) u = s ∧ preFinalize f = f2 := by
        simpa using h
      subst hf
      rw [preFinalize_idem]
      simp [hp, hs]
  · intro f
    rfl

/-- C10 witness: repeated rendering of a concrete one-predicate builder. -/
theorem c10_render_idempotent_witness :
    toStringTQL
      (⟨[⟨"a", .EQ, .str "x"⟩], [], none, "", none, none⟩ : TQLFilter) true =
    Except.ok ("a~EQ~x",
      (⟨[⟨"a", .EQ, .str "x"⟩], [], none, "", none, none⟩ : TQLFilter)) :=
  c10_render_idempotent.1
    (⟨[⟨"a", .EQ, .str "x"⟩], [], none, "", none, none⟩ : TQLFilter)
    true "a~EQ~x"
    (⟨[⟨"a", .EQ, .str "x"⟩], [], none, "", none, none⟩ : TQLFilter) rfl

/- ## Request executor (src/utils/makeRequest.ts) and error classifier
(src/utils/handleError.ts) -/

/-- Leading decimal digits of a character list, `none` when there are none
(the digit phase of JS `parseInt(str, 10)`). -/
def leadingDigits (cs : List Char) : Option Nat :=
  let ds := cs.takeWhile Char.isDigit
  if ds = [] then none
  else some (ds.foldl (fun a c => a * 10 + (c.toNat - 48)) 0)

/-- JS `parseInt(str, 10)`: skip leading whitespace, optional sign, read
leading digits; `NaN` (here `none`) when no digits follow. -/
def jsParseInt (s : String) : Option Int :=
  let cs := s.toList.dropWhile Char.isWhitespace
  match cs with
  | '-' :: rest => (leadingDigits rest).map (fun n => -(n : Int))
  | '+' :: rest => (leadingDigits rest).map (fun n => (n : Int))
  | _ => (leadingDigits cs).map (fun n => (n : Int))

/-- The delay computation of the 429 branch of `makeRequest`
(lines 52-83): Retry-After as integer seconds, else as a calendar date
(`parseDate` models `new Date(...)`, `none` for an invalid date), else
exponential backoff `2^retries * 1000` with multiplicative jitter; the
result of every branch is capped at `maxRetryDelayMs`. A present but empty
header string is falsy in JS and also falls to the exponential branch.
Times and delays are rationals (JS numbers on these code paths stay
dyadic rationals). -/
def computeDelayMs (retries : Nat) (retryAfterHeader : Option String)
    (parseDate : String → Option Int) (now : Int)
    (jitterFactor maxRetryDelayMs : ℚ) : ℚ :=
  let expDelay : ℚ := ((2 : ℚ) ^ retries * 1000) * jitterFactor
  let raw : ℚ :=
    match retryAfterHeader with
    | none => expDelay
    | some hdr =>
      if hdr = "" then expDelay
      else
        match jsParseInt hdr with
        | some secs => (secs : ℚ) * 1000
        | none =>
          match parseDate hdr with
          | some t => max 0 ((t : ℚ) - (now : ℚ))
          | none => expDelay
  min maxRetryDelayMs raw

/-- The axios rejection shapes `handleError` distinguishes:
`error.response` (with status, the `retry-after` header and
`data.message`), `error.request`, and a setup error. -/
inductive JsError where
  | response (status : Nat) (retryAfter : Option String)
      (dataMessage : Option String)
  | request (message : String)
  | setup (message : String)
deriving DecidableEq, Repr

/-- What a `handleError` call does: return `[]` or throw a message. -/
inductive HandleErrorOut where
  | emptyArr
  | thrown (message : String)
deriving DecidableEq, Repr

/-- `handleError(log, error)`: 404 returns an empty array; any other
response status throws `data.message || "HTTP <status>"`; a request error
and a setup error throw their fixed messages. -/
def handleError : JsError → HandleErrorOut
  | .response status _ dataMessage =>
    if status = 404 then .emptyArr
    else .thrown (match dataMessage with
      | some m => if m = "" then "HTTP " ++ toString status else m
      | none => "HTTP " ++ toString status)
  | .request _ => .thrown "No response received from the API"
  | .setup _ => .thrown "Error setting up the request"

/-- How `makeRequest` can fail: an error rethrown out of `handleError`, or
the budget-exhausted error naming the endpoint and the configured budget. -/
inductive ReqError where
  | api (message : String)
  | budget (endpoint : String) (maxRetryTimeMs : ℚ)
deriving DecidableEq, Repr

/-- The environment of one `makeRequest` call: the endpoint, the outcome of
the i-th transport attempt, the jitter draw of the i-th attempt, the date
parser and current time for Retry-After dates, and the two budgets. -/
structure ReqEnv (α : Type) where
  endpoint : String
  transport : Nat → Except JsError α
  jitter : Nat → ℚ
  parseDate : String → Option Int
  now : Int
  maxRetryTimeMs : ℚ
  maxRetryDelayMs : ℚ

/-- `error.response?.status === 429`. -/
def is429 : JsError → Bool
  | .response s _ _ => s = 429
  | _ => false

/-- `error.response.headers["retry-after"]`. -/
def retryAfterOf : JsError → Option String
  | .response _ h _ => h
  | _ => none

/-- The delay the 429 branch computes at attempt `i` with retry counter
`r`. -/
def delayAt (env : ReqEnv α) (i r : Nat) (e : JsError) : ℚ :=
  computeDelayMs r (retryAfterOf e) env.parseDate env.now (env.jitter i)
    env.maxRetryDelayMs

/-- Observable steps of the retry loop: a transport attempt issued at
elapsed time `t`, and a backoff sleep of `d` started at elapsed time `t`. -/
inductive ReqEvent where
  | attempt (elapsed : ℚ)
  | sleep (elapsed : ℚ) (delay : ℚ)
deriving DecidableEq, Repr

/-- The `while (totalElapsedTime < maxRetryTimeMs)` loop of `makeRequest`,
fuel-indexed (`none` = the loop is still running after `fuel` iterations),
together with the trace of attempts and sleeps. State: attempt index `i`,
`totalElapsedTime` `t`, retry counter `r`. A 2xx returns the body; a 429
computes a delay, breaks to the budget error when
`totalElapsedTime + delay >= maxRetryTimeMs` and otherwise sleeps,
accumulates the delay and increments the counter; any other error goes
through `handleError` — a throw propagates, the 404 empty-array return is
discarded and the loop re-enters with unchanged counters. Falling out of
the loop yields the budget-exhausted error. -/
def makeRequestGo (env : ReqEnv α) :
    Nat → Nat → ℚ → Nat → Option (Except ReqError α) × List ReqEvent
  | 0, _, _, _ => (none, [])
  | fuel + 1, i, t, r =>
    if t < env.maxRetryTimeMs then
      match env.transport i with
      | .ok v => (some (.ok v), [.attempt t])
      | .error e =>
        if is429 e then
          if env.maxRetryTimeMs ≤ t + delayAt env i r e then
            (some (.error (.budget env.endpoint env.maxRetryTimeMs)),
              [.attempt t])
          else
            ((makeRequestGo env fuel (i + 1) (t + delayAt env i r e) (r + 1)).1,
              .attempt t :: .sleep t (delayAt env i r e) ::
                (makeRequestGo env fuel (i + 1) (t + delayAt env i r e) (r + 1)).2)
        else
          match handleError e with
          | .emptyArr =>
            ((makeRequestGo env fuel (i + 1) t r).1,
              .attempt t :: (makeRequestGo env fuel (i + 1) t r).2)
          | .thrown m => (some (.error (.api m)), [.attempt t])
    else (some (.error (.budget env.endpoint env.maxRetryTimeMs)), [])

/-- `makeRequest` from its initial state (`totalElapsedTime = 0`,
`retries = 0`). -/
def makeRequestModel (env : ReqEnv α) (fuel : Nat) :
    Option (Except ReqError α) × List ReqEvent :=
  makeRequestGo env fuel 0 0 0

/-- Validity of a loop event against the time budget: attempts are issued
only while `totalElapsedTime < maxRetryTimeMs`, sleeps only while
`totalElapsedTime + delay < maxRetryTimeMs`. -/
def eventWithinBudget (budget : ℚ) : ReqEvent → Prop
  | .attempt t => t < budget
  | .sleep t d => t + d < budget

/- ### Backoff policy claims -/

/-- C4: with no Retry-After header the exponential branch is taken: the
pre-jitter base is `1000 * 2^k`, the jittered delay is the base times the
jitter factor — within ±25% of the base for a factor in [0.75, 1.25] —
and the returned delay is the jittered delay capped at `maxRetryDelayMs`,
hence never exceeds the cap and stays within ±25% of the capped base. -/
theorem c4_exponential_backoff (k : Nat) (f cap : ℚ)
    (pd : String → Option Int) (now : Int)
    (h1 : 3/4 ≤ f) (h2 : f ≤ 5/4) (h3 : 0 ≤ cap) :
    computeDelayMs k none pd now f cap = min cap ((1000 * 2 ^ k) * f)
    ∧ (3/4) * (1000 * 2 ^ k) ≤ (1000 * 2 ^ k) * f
    ∧ (1000 * 2 ^ k) * f ≤ (5/4) * (1000 * 2 ^ k)
    ∧ computeDelayMs k none pd now f cap ≤ cap
    ∧ (3/4) * min cap (1000 * 2 ^ k) ≤ computeDelayMs k none pd now f cap
    ∧ computeDelayMs k none pd now f cap ≤ (5/4) * min cap (1000 * 2 ^ k) := by
  have hb : (0 : ℚ) < 1000 * 2 ^ k := by positivity
  have heq : computeDelayMs k none pd now f cap = min cap ((1000 * 2 ^ k) * f) := by
    unfold computeDelayMs
    ring_nf
  have hlo : (3/4) * (1000 * 2 ^ k) ≤ (1000 * 2 ^ k) * f := by nlinarith
  have hhi : (1000 * 2 ^ k) * f ≤ (5/4) * (1000 * 2 ^ k) := by nlinarith
  refine ⟨heq, hlo, hhi, ?_, ?_, ?_⟩
  · rw [heq]; exact min_le_left _ _
  · rw [heq]
    rcases le_total cap (1000 * 2 ^ k) with hc | hc
    · rw [min_eq_left hc]
      rcases le_total cap ((1000 * 2 ^ k) * f) with hd | hd
      · rw [min_eq_left hd]; nlinarith
      · rw [min_eq_right hd]; nlinarith
    · rw [min_eq_right hc]
      rcases le_total cap ((1000 * 2 ^ k) * f) with hd | hd
      · rw [min_eq_left hd]; nlinarith
      · rw [min_eq_right hd]; nlinarith
  · rw [heq]
    rcases le_total cap (1000 * 2 ^ k) with hc | hc
    · rw [min_eq_left hc]
      calc min cap ((1000 * 2 ^ k) * f) ≤ cap := min_le_left _ _
        _ ≤ (5/4) * cap := by nlinarith
    · rw [min_eq_right hc]
      calc min cap ((1000 * 2 ^ k) * f) ≤ (1000 * 2 ^ k) * f := min_le_right _ _
        _ ≤ (5/4) * (1000 * 2 ^ k) := hhi

/-- C4 witness: the backoff bounds at `k = 1`, jitter factor 1, cap
60000. -/
theorem c4_exponential_backoff_witness :
    computeDelayMs 1 none (fun _ => none) 0 1 60000 = min 60000 ((1000 * 2 ^ 1) * 1)
    ∧ ((3 : ℚ)/4) * (1000 * 2 ^ 1) ≤ (1000 * 2 ^ 1) * 1
    ∧ ((1000 : ℚ) * 2 ^ 1) * 1 ≤ (5/4) * (1000 * 2 ^ 1)
    ∧ computeDelayMs 1 none (fun _ => none) 0 1 60000 ≤ 60000
    ∧ ((3 : ℚ)/4) * min 60000 (1000 * 2 ^ 1) ≤ computeDelayMs 1 none (fun _ => none) 0 1 60000
    ∧ computeDelayMs 1 none (fun _ => none) 0 1 60000 ≤ ((5 : ℚ)/4) * min 60000 (1000 * 2 ^ 1) :=
  c4_exponential_backoff 1 1 60000 (fun _ => none) 0
    (by norm_num) (by norm_num) (by norm_num)

/-- C5 claim, as stated, is false on the code: the cap of line 83 applies
to the Retry-After branch as well, so with the repository's default
`maxRetryDelayMs` of 60000 a Retry-After of `"120"` yields 60000 ms, not
120000 ms. -/
theorem c5_counterexample :
    computeDelayMs 3 (some "120") (fun _ => none) 0 1 60000 = 60000
    ∧ (60000 : ℚ) ≠ 120000 := by
  constructor
  · have h : jsParseInt "120" = some 120 := rfl
    simp [computeDelayMs, h]
    norm_num
  · norm_num

/-- C5 (amended): a Retry-After header of `"120"` yields exactly
`min(maxRetryDelayMs, 120000)` ms — exactly 120000 whenever the cap is at
least 120000 — independent of the attempt count and of the jitter draw
(no jitter is applied to this branch). -/
theorem c5_retry_after_precedence (k : Nat) (pd : String → Option Int)
    (now : Int) (f cap : ℚ) :
    computeDelayMs k (some "120") pd now f cap = min cap 120000 := by
  have h : jsParseInt "120" = some 120 := rfl
  simp [computeDelayMs, h]
  norm_num

/-- C6: a Retry-After header that parses as neither an integer nor a valid
calendar date does not fail the policy: the delay equals the one computed
with no header at all (the exponential branch with jitter, capped),
independent of the header text. -/
theorem c6_unparseable_fallback (k : Nat) (f cap : ℚ)
    (pd : String → Option Int) (now : Int) (hdr : String)
    (hint : jsParseInt hdr = none) (hdate : pd hdr = none) :
    computeDelayMs k (some hdr) pd now f cap = computeDelayMs k none pd now f cap
    ∧ computeDelayMs k (some hdr) pd now f cap = min cap (((2 : ℚ) ^ k * 1000) * f) := by
  have h : computeDelayMs k (some hdr) pd now f cap =
      min cap (((2 : ℚ) ^ k * 1000) * f) := by
    by_cases he : hdr = ""
    · simp [computeDelayMs, he]
    · simp [computeDelayMs, he, hint, hdate]
  exact ⟨by rw [h]; simp [computeDelayMs], h⟩

/-- C6 witness: the fallback at the unparseable header `"banana"`. -/
theorem c6_unparseable_fallback_witness :
    computeDelayMs 0 (some "banana") (fun _ => none) 0 1 60000 =
      computeDelayMs 0 none (fun _ => none) 0 1 60000
    ∧ computeDelayMs 0 (some "banana") (fun _ => none) 0 1 60000 =
      min 60000 (((2 : ℚ) ^ 0 * 1000) * 1) :=
  c6_unparseable_fallback 0 1 60000 (fun _ => none) 0 "banana" rfl rfl

/- ### Executor claims -/

lemma makeRequestGo_trace_within {α : Type} (env : ReqEnv α) :
    ∀ (fuel i : Nat) (t : ℚ) (r : Nat),
      ∀ e ∈ (makeRequestGo env fuel i t r).2,
        eventWithinBudget env.maxRetryTimeMs e := by
  intro fuel
  induction fuel with
  | zero =>
    intro i t r e he
    simp [makeRequestGo] at he
  | succ n ih =>
    intro i t r e he
    by_cases ht : t < env.maxRetryTimeMs
    · rcases htr : env.transport i with err | v
      case pos.ok =>
        simp only [makeRequestGo, if_pos ht, htr, List.mem_singleton] at he
        subst he
        exact ht
      case pos.error =>
        by_cases h429 : is429 err = true
        · by_cases hbud : env.maxRetryTimeMs ≤ t + delayAt env i r err
          · simp only [makeRequestGo, if_pos ht, htr, h429, if_true,
              if_pos hbud, List.mem_singleton] at he
            subst he
            exact ht
          · simp only [makeRequestGo, if_pos ht, htr, h429, if_true,
              if_neg hbud, List.mem_cons] at he
            rcases he with rfl | he2
            · exact ht
            · rcases he2 with rfl | he3
              · exact lt_of_not_le hbud
              · exact ih (i + 1) (t + delayAt env i r err) (r + 1) e he3
        · rcases hhe : handleError err with _ | m
          · simp only [makeRequestGo, if_pos ht, htr, h429, Bool.false_eq_true,
              if_false, hhe, List.mem_cons] at he
            rcases he with rfl | he2
            · exact ht
            · exact ih (i + 1) t r e he2
          · simp only [makeRequestGo, if_pos ht, htr, h429, Bool.false_eq_true,
              if_false, hhe, List.mem_singleton] at he
            subst he
            exact ht
    · simp only [makeRequestGo, if_neg ht] at he
      simp at he

/-- C3: every transport attempt in a run's trace is issued only while
`totalElapsedTime < maxRetryTimeMs` (the loop guard, checked before each
attempt) and every retry sleep only while
`totalElapsedTime + delay < maxRetryTimeMs`; when the guard fails the run
ends at once with the budget-exhausted error naming the endpoint and the
budget, and a 429 whose computed delay would overrun the budget ends the
run the same way, with no sleep and no further attempt. -/
theorem c3_budget_exhaustion {α : Type} (env : ReqEnv α) (fuel i : Nat)
    (t : ℚ) (r : Nat) :
    (∀ e ∈ (makeRequestGo env fuel i t r).2,
      eventWithinBudget env.maxRetryTimeMs e)
    ∧ (env.maxRetryTimeMs ≤ t →
        makeRequestGo env (fuel + 1) i t r =
          (some (.error (.budget env.endpoint env.maxRetryTimeMs)), []))
    ∧ (∀ e2 : JsError, env.transport i = .error e2 → is429 e2 = true →
        t < env.maxRetryTimeMs →
        env.maxRetryTimeMs ≤ t + delayAt env i r e2 →
        makeRequestGo env (fuel + 1) i t r =
          (some (.error (.budget env.endpoint env.maxRetryTimeMs)),
            [.attempt t])) := by
  refine ⟨makeRequestGo_trace_within env fuel i t r, ?_, ?_⟩
  · intro h
    simp only [makeRequestGo, if_neg (not_lt.mpr h)]
  · intro e2 htr h429 ht hbud
    simp only [makeRequestGo, if_pos ht, htr, h429, if_true, if_pos hbud]

/-- C3 witness: a concrete environment whose first attempt is a 429 whose
delay (1000 ms) overruns the 500 ms budget: the run fails immediately with
the budget error. -/
theorem c3_budget_exhaustion_witness :
    makeRequestGo
      ({ endpoint := "/agents"
         transport := fun _ => .error (.response 429 none none)
         jitter := fun _ => 1
         parseDate := fun _ => none
         now := 0
         maxRetryTimeMs := 500
         maxRetryDelayMs := 60000 } : ReqEnv Int) 1 0 0 0 =
      (some (.error (.budget "/agents" 500)), [.attempt 0]) := by
  refine (c3_budget_exhaustion
    ({ endpoint := "/agents"
       transport := fun _ => .error (.response 429 none none)
       jitter := fun _ => 1
       parseDate := fun _ => none
       now := 0
       maxRetryTimeMs := 500
       maxRetryDelayMs := 60000 } : ReqEnv Int) 0 0 0 0).2.2
    (.response 429 none none) rfl rfl (by norm_num) ?_
  have h : delayAt
      ({ endpoint := "/agents"
         transport := fun _ => .error (.response 429 none none)
         jitter := fun _ => 1
         parseDate := fun _ => none
         now := 0
         maxRetryTimeMs := 500
         maxRetryDelayMs := 60000 } : ReqEnv Int) 0 0 (.response 429 none none) =
      1000 := by
    simp [delayAt, retryAfterOf, computeDelayMs]
    norm_num
  rw [h]
  norm_num

/-- The environment of the C2 analysis: every transport attempt yields an
HTTP 404 response, with the repository's default budgets. -/
def env404 : ReqEnv Int :=
  { endpoint := "/agents"
    transport := fun _ => .error (.response 404 none none)
    jitter := fun _ => 1
    parseDate := fun _ => none
    now := 0
    maxRetryTimeMs := 300000
    maxRetryDelayMs := 60000 }

/-- C2 (code bug): under permanent 404 responses, `makeRequest` never
produces any outcome — for every fuel the loop is still running (so it
never yields the empty sequence `handleError` hands back), and the trace
holds one fresh transport attempt per iteration (the 404 IS retried,
indefinitely, since the non-429 path never advances `totalElapsedTime`). -/
theorem c2_404_never_returns (fuel i r : Nat) :
    (makeRequestGo env404 fuel i 0 r).1 = none
    ∧ (makeRequestGo env404 fuel i 0 r).2.length = fuel := by
  induction fuel generalizing i r with
  | zero => simp [makeRequestGo]
  | succ n ih =>
    have ht : (0 : ℚ) < env404.maxRetryTimeMs := by norm_num [env404]
    have htr : env404.transport i = .error (.response 404 none none) := rfl
    have h429 : is429 (.response 404 none none) = false := rfl
    have hhe : handleError (.response 404 none none) = .emptyArr := rfl
    simp only [makeRequestGo, if_pos ht, htr, h429, Bool.false_eq_true,
      if_false, hhe, List.length_cons]
    exact ⟨(ih (i + 1) r).1, by rw [(ih (i + 1) r).2]⟩

/- ## Pagination aggregator (src/utils/makePaginatedRequest.ts) -/

/-- One page of the wire response: `{ data: T[], next_page: number | null }`. -/
structure PageResponse (α : Type) where
  data : List α
  next_page : Option Int
deriving DecidableEq, Repr

/-- The `do { ... } while (nextPage)` loop of `makePaginatedRequest` on the
success path, fuel-indexed (`none` = still looping after `fuel`
iterations). Each iteration appends the page's `data` to the accumulator
and moves the cursor to the response's `next_page`; the JS condition
`while (nextPage)` is falsy on `null` AND on `0`. -/
def collectPages {α : Type} (server : Int → PageResponse α) :
    Nat → Int → List α → Option (List α)
  | 0, _, _ => none
  | fuel + 1, page, acc =>
    match (server page).next_page with
    | none => some (acc ++ (server page).data)
    | some p =>
      if p = 0 then some (acc ++ (server page).data)
      else collectPages server fuel p (acc ++ (server page).data)

/-- The pages the loop visits, in fetch order, starting from `page`. -/
def pagesVisited {α : Type} (server : Int → PageResponse α) :
    Nat → Int → List Int
  | 0, _ => []
  | fuel + 1, page =>
    match (server page).next_page with
    | none => [page]
    | some p => if p = 0 then [page] else page :: pagesVisited server fuel p

/-- `makePaginatedRequest`: the loop from its initial state
(`nextPage = 1`, empty accumulator). -/
def makePaginatedRequestModel {α : Type} (server : Int → PageResponse α)
    (fuel : Nat) : Option (List α) :=
  collectPages server fuel 1 []

lemma collectPages_flatten {α : Type} (server : Int → PageResponse α) :
    ∀ (fuel : Nat) (page : Int) (acc out : List α),
      collectPages server fuel page acc = some out →
      out = acc ++ ((pagesVisited server fuel page).map
        (fun q => (server q).data)).flatten := by
  intro fuel
  induction fuel with
  | zero =>
    intro page acc out h
    simp [collectPages] at h
  | succ n ih =>
    intro page acc out h
    rcases hnp : (server page).next_page with _ | p
    · simp only [collectPages, hnp, Option.some_inj] at h
      simp [pagesVisited, hnp, ← h]
    · by_cases hp : p = 0
      · subst hp
        simp only [collectPages, hnp, if_true, Option.some_inj] at h
        simp [pagesVisited, hnp, ← h]
      · simp only [collectPages, hnp, if_neg hp] at h
        have h2 := ih p (acc ++ (server page).data) out h
        simp [pagesVisited, hnp, hp, h2]

lemma collectPages_terminal {α : Type} (server : Int → PageResponse α) :
    ∀ (fuel : Nat) (page : Int) (acc out : List α),
      collectPages server fuel page acc = some out →
      ∃ q ∈ pagesVisited server fuel page,
        (server q).next_page = none ∨ (server q).next_page = some 0 := by
  intro fuel
  induction fuel with
  | zero =>
    intro page acc out h
    simp [collectPages] at h
  | succ n ih =>
    intro page acc out h
    rcases hnp : (server page).next_page with _ | p
    · exact ⟨page, by simp [pagesVisited, hnp], Or.inl hnp⟩
    · by_cases hp : p = 0
      · subst hp
        exact ⟨page, by simp [pagesVisited, hnp], Or.inr hnp⟩
      · simp only [collectPages, hnp, if_neg hp] at h
        obtain ⟨q, hq, hfalsy⟩ := ih p (acc ++ (server page).data) out h
        exact ⟨q, by simp [pagesVisited, hnp, hp, hq], hfalsy⟩

lemma collectPages_none_of_truthy {α : Type} (server : Int → PageResponse α) :
    ∀ (fuel : Nat) (page : Int) (acc : List α),
      (∀ q ∈ pagesVisited server fuel page,
        ∃ p, (server q).next_page = some p ∧ p ≠ 0) →
      collectPages server fuel page acc = none := by
  intro fuel
  induction fuel with
  | zero =>
    intro page acc _
    rfl
  | succ n ih =>
    intro page acc htruthy
    rcases hnp : (server page).next_page with _ | p
    · obtain ⟨p2, hp2, _⟩ := htruthy page (by simp [pagesVisited, hnp])
      rw [hnp] at hp2
      cases hp2
    · by_cases hp : p = 0
      · subst hp
        obtain ⟨p2, hp2, hne⟩ := htruthy page (by simp [pagesVisited, hnp])
        rw [hnp] at hp2
        cases hp2
        exact absurd rfl hne
      · simp only [collectPages, hnp, if_neg hp]
        refine ih p (acc ++ (server page).data) ?_
        intro q hq
        exact htruthy q (by simp [pagesVisited, hnp, hp, hq])

/-- The example server of the C8 claim: page 1 carries `[1,2]` with
`next_page = 2`, page 2 carries `[3]` with `next_page = null`. -/
def exPages : Int → PageResponse Int := fun p =>
  if p = 1 then ⟨[1, 2], some 2⟩
  else if p = 2 then ⟨[3], none⟩
  else ⟨[], none⟩

/-- A server answering page 1 with cursor `next_page = 0`: a non-null
cursor the JS loop condition nevertheless treats as terminal. -/
def zeroCursorPages : Int → PageResponse Int := fun p =>
  if p = 1 then ⟨[10], some 0⟩ else ⟨[20], none⟩

/-- C8 claim, as stated, is false on the code: with a page-1 response whose
`next_page` is `0` (an integer, not null) the aggregator stops and returns
`[10]` — it does not fetch page 0 (which would have contributed `[20]`),
although the cursor is not null, because `while (nextPage)` is falsy at 0. -/
theorem c8_counterexample :
    makePaginatedRequestModel zeroCursorPages 5 = some [10]
    ∧ (zeroCursorPages 1).next_page = some 0
    ∧ (zeroCursorPages 1).next_page ≠ none
    ∧ makePaginatedRequestModel zeroCursorPages 5 ≠ some [10, 20] := by
  refine ⟨rfl, rfl, by simp [zeroCursorPages], by decide⟩

/-- C8 (amended): the aggregator starts at page 1; whenever it returns, the
result is the accumulator followed by the visited pages' `data` arrays
concatenated in fetch order (server page order, each page's array order
preserved, no reordering); it returns exactly when a visited page's
`next_page` is null OR 0 (the JS-falsy cursors), looping otherwise; and
the claim's example `[{data:[1,2],next_page:2},{data:[3],next_page:null}]`
yields `[1,2,3]`. -/
theorem c8_pagination :
    (∀ (α : Type) (server : Int → PageResponse α) (fuel : Nat),
        makePaginatedRequestModel server fuel = collectPages server fuel 1 [])
    ∧ (∀ (α : Type) (server : Int → PageResponse α) (fuel : Nat) (page : Int)
        (acc out : List α),
        collectPages server fuel page acc = some out →
        out = acc ++ ((pagesVisited server fuel page).map
          (fun q => (server q).data)).flatten)
    ∧ (∀ (α : Type) (server : Int → PageResponse α) (fuel : Nat) (page : Int)
        (acc out : List α),
        collectPages server fuel page acc = some out →
        ∃ q ∈ pagesVisited server fuel page,
          (server q).next_page = none ∨ (server q).next_page = some 0)
    ∧ (∀ (α : Type) (server : Int → PageResponse α) (fuel : Nat) (page : Int)
        (acc : List α),
        (∀ q ∈ pagesVisited server fuel page,
          ∃ p, (server q).next_page = some p ∧ p ≠ 0) →
        collectPages server fuel page acc = none)
    ∧ makePaginatedRequestModel exPages 5 = some [1, 2, 3] :=
  ⟨fun _ _ _ => rfl,
   fun _ server fuel page acc out h => collectPages_flatten server fuel page acc out h,
   fun _ server fuel page acc out h => collectPages_terminal server fuel page acc out h,
   fun _ server fuel page acc h => collectPages_none_of_truthy server fuel page acc h,
   rfl⟩

/-- An endless chain of truthy cursors: every page points at page 1. -/
def loopingPages : Int → PageResponse Int := fun _ => ⟨[], some 1⟩

/-- C8 witness: the order/termination properties applied at the concrete
example server, and the non-termination direction at an endlessly truthy
server. -/
theorem c8_pagination_witness :
    ([1, 2, 3] : List Int) = [] ++ ((pagesVisited exPages 5 1).map
      (fun q => (exPages q).data)).flatten
    ∧ (∃ q ∈ pagesVisited exPages 5 1,
        (exPages q).next_page = none ∨ (exPages q).next_page = some 0)
    ∧ collectPages loopingPages 3 1 [] = none := by
  refine ⟨?_, ?_, ?_⟩
  · exact c8_pagination.2.1 Int exPages 5 1 [] [1, 2, 3] rfl
  · exact c8_pagination.2.2.1 Int exPages 5 1 [] [1, 2, 3] rfl
  · refine c8_pagination.2.2.2.1 Int loopingPages 3 1 [] ?_
    intro q hq
    exact ⟨1, rfl, one_ne_zero⟩
